import Mathlib

/-!
Verification of the round-simulation core of the fishing game
(economy, hook/line, fish population) against its specification.

The Python source is shallowly embedded: Python `int` becomes `Int`
(upgrade levels, which only ever grow from 0, become `Nat`), Python
`float` depth values become `Rat`, mutating methods become functions
from state to state (paired with their returned boolean where the
method returns one), and the save-file JSON record becomes a structure
with `Option` fields so that missing keys can be modelled.
-/

set_option maxHeartbeats 1000000

namespace VibeCatch

/-- Zone order of `Config.DEPTH_ZONES` (Python 3.7+ dicts preserve
insertion order, so `list(Config.DEPTH_ZONES.keys())` is this list). -/
def ZONE_NAMES : List String := ["surface", "shallows", "mid_water", "deep_sea", "abyss"]

/-- `Config.DEPTH_ZONES`: name with inclusive depth interval. -/
def DEPTH_ZONES : List (String × Int × Int) :=
  [("surface", 0, 100), ("shallows", 101, 200), ("mid_water", 201, 300),
   ("deep_sea", 301, 400), ("abyss", 401, 500)]

def BASE_ROUND_DURATION : Int := 10000

def BASE_HOOK_CAPACITY : Nat := 4

def BASE_MAX_DEPTH : Int := 300

def DEPTH_INCREASE_PER_LEVEL : Int := 100

def CAPACITY_INCREASE_PER_LEVEL : Nat := 1

def TIMER_INCREASE_PER_LEVEL : Int := 5000

/-- `Config.UPGRADE_COSTS`, as a total function on the key: the three
known kinds map to their 5-entry tables, anything else to `[]` (the
Python dict lookup is always guarded by a key-membership check). -/
def UPGRADE_COSTS (name : String) : List Int :=
  if name = "line_length" then [100, 250, 500, 1000, 2000]
  else if name = "hook_capacity" then [200, 400, 800, 1600, 3200]
  else if name = "round_timer" then [150, 300, 600, 1200, 2400]
  else []

/-- The `self.upgrades` dict: three fixed keys, each a level. -/
structure Upgrades where
  line_length : Nat
  hook_capacity : Nat
  round_timer : Nat
deriving DecidableEq, Repr

/-- Dict lookup `self.upgrades[name]`, `none` when the key is absent. -/
def Upgrades.get? (u : Upgrades) (name : String) : Option Nat :=
  if name = "line_length" then some u.line_length
  else if name = "hook_capacity" then some u.hook_capacity
  else if name = "round_timer" then some u.round_timer
  else none

/-- Dict update `self.upgrades[name] = v` (no-op on unknown keys; the
code only performs it after a membership check). -/
def Upgrades.set (u : Upgrades) (name : String) (v : Nat) : Upgrades :=
  if name = "line_length" then { u with line_length := v }
  else if name = "hook_capacity" then { u with hook_capacity := v }
  else if name = "round_timer" then { u with round_timer := v }
  else u

/-- The `self.power_ups` dict: four fixed keys, each a counter.
Counters are modelled as `Int` (Python ints) so that non-negativity is
a real invariant rather than a typing artifact. -/
structure PowerUps where
  coin_multiplier : Int
  rare_fish_lure : Int
  magnet_hook : Int
  depth_rush : Int
deriving DecidableEq, Repr

/-- Dict lookup `self.power_ups[name]`. -/
def PowerUps.get? (p : PowerUps) (name : String) : Option Int :=
  if name = "coin_multiplier" then some p.coin_multiplier
  else if name = "rare_fish_lure" then some p.rare_fish_lure
  else if name = "magnet_hook" then some p.magnet_hook
  else if name = "depth_rush" then some p.depth_rush
  else none

/-- Dict update `self.power_ups[name] = v`. -/
def PowerUps.set (p : PowerUps) (name : String) (v : Int) : PowerUps :=
  if name = "coin_multiplier" then { p with coin_multiplier := v }
  else if name = "rare_fish_lure" then { p with rare_fish_lure := v }
  else if name = "magnet_hook" then { p with magnet_hook := v }
  else if name = "depth_rush" then { p with depth_rush := v }
  else p

/-- All four counters are non-negative. -/
def PowerUps.nonneg (p : PowerUps) : Prop :=
  0 ≤ p.coin_multiplier ∧ 0 ≤ p.rare_fish_lure ∧ 0 ≤ p.magnet_hook ∧ 0 ≤ p.depth_rush

instance (p : PowerUps) : Decidable p.nonneg := by
  unfold PowerUps.nonneg; infer_instance

/-- The mutable fields of `GameState` (`game_state.py`). -/
structure GameState where
  coins : Int
  upgrades : Upgrades
  power_ups : PowerUps
  unlocked_zones : List String
  total_fish_caught : Int
  total_coins_earned : Int
  deepest_depth_reached : Rat
deriving DecidableEq, Repr

/-- `GameState.__init__`. -/
def GameState.initial : GameState :=
  { coins := 0
    upgrades := ⟨0, 0, 0⟩
    power_ups := ⟨0, 0, 0, 0⟩
    unlocked_zones := ["surface"]
    total_fish_caught := 0
    total_coins_earned := 0
    deepest_depth_reached := 0 }

/-- `GameState.add_coins`. -/
def GameState.add_coins (s : GameState) (amount : Int) : GameState :=
  { s with coins := s.coins + amount
           total_coins_earned := s.total_coins_earned + amount }

/-- `GameState.get_max_depth`: base depth plus level times increase. -/
def GameState.get_max_depth (s : GameState) : Int :=
  BASE_MAX_DEPTH + (s.upgrades.line_length : Int) * DEPTH_INCREASE_PER_LEVEL

/-- `GameState.get_hook_capacity`. -/
def GameState.get_hook_capacity (s : GameState) : Nat :=
  BASE_HOOK_CAPACITY + s.upgrades.hook_capacity * CAPACITY_INCREASE_PER_LEVEL

/-- `GameState.get_round_duration` (milliseconds). -/
def GameState.get_round_duration (s : GameState) : Int :=
  BASE_ROUND_DURATION + (s.upgrades.round_timer : Int) * TIMER_INCREASE_PER_LEVEL

/-- `GameState._update_unlocked_zones`: the unlocked list becomes the
prefix of the zone table of length `min (number of zones) (line_length
level + 1)`. -/
def GameState.update_unlocked_zones (s : GameState) : GameState :=
  { s with unlocked_zones := ZONE_NAMES.take (min ZONE_NAMES.length (s.upgrades.line_length + 1)) }

/-- `GameState.purchase_upgrade`: checks key membership, max level,
then affordability; on success debits the cost, bumps the level and
recomputes the unlocked-zone prefix.  Returns the new state together
with the method's boolean result. -/
def GameState.purchase_upgrade (s : GameState) (upgrade_name : String) : GameState × Bool :=
  match s.upgrades.get? upgrade_name with
  | none => (s, false)
  | some current_level =>
    if (UPGRADE_COSTS upgrade_name).length ≤ current_level then (s, false)
    else if s.coins < (UPGRADE_COSTS upgrade_name).getD current_level 0 then (s, false)
    else
      ({ s with coins := s.coins - (UPGRADE_COSTS upgrade_name).getD current_level 0
                upgrades := s.upgrades.set upgrade_name (current_level + 1)
        }.update_unlocked_zones, true)

/-- `GameState.purchase_power_up`. -/
def GameState.purchase_power_up (s : GameState) (power_up_name : String) (cost : Int) :
    GameState × Bool :=
  match s.power_ups.get? power_up_name with
  | none => (s, false)
  | some n =>
    if s.coins < cost then (s, false)
    else ({ s with coins := s.coins - cost
                   power_ups := s.power_ups.set power_up_name (n + 1) }, true)

/-- `GameState.use_power_up`. -/
def GameState.use_power_up (s : GameState) (power_up_name : String) : GameState × Bool :=
  match s.power_ups.get? power_up_name with
  | none => (s, false)
  | some n =>
    if n ≤ 0 then (s, false)
    else ({ s with power_ups := s.power_ups.set power_up_name (n - 1) }, true)

/-- `GameState.update_stats`. -/
def GameState.update_stats (s : GameState) (depth : Rat) (fish_caught : Int) : GameState :=
  if s.deepest_depth_reached < depth then
    { s with total_fish_caught := s.total_fish_caught + fish_caught
             deepest_depth_reached := depth }
  else { s with total_fish_caught := s.total_fish_caught + fish_caught }

/-- `GameState.reset_progress`: every field back to its initial value. -/
def GameState.reset_progress (_s : GameState) : GameState := GameState.initial

/-- The stats sub-record of the save file. -/
structure StatsData where
  total_fish_caught : Int
  total_coins_earned : Int
  deepest_depth_reached : Rat
deriving DecidableEq, Repr

/-- The JSON save record.  Each field is optional because `load_game`
reads every key with `dict.get` and a default; `save_game` always
writes all of them. -/
structure SaveData where
  coins : Option Int
  upgrades : Option Upgrades
  power_ups : Option PowerUps
  unlocked_zones : Option (List String)
  stats : Option StatsData
deriving DecidableEq, Repr

/-- `GameState.save_game`: the record written to disk. -/
def GameState.save_game (s : GameState) : SaveData :=
  { coins := some s.coins
    upgrades := some s.upgrades
    power_ups := some s.power_ups
    unlocked_zones := some s.unlocked_zones
    stats := some ⟨s.total_fish_caught, s.total_coins_earned, s.deepest_depth_reached⟩ }

/-- `GameState.load_game` applied to a parsed record: every field is
read with a default (`coins` 0, `upgrades` and `power_ups` the current
in-memory values, `unlocked_zones` `["surface"]`, each stat 0 when the
`stats` sub-record is absent). -/
def GameState.load_game (s : GameState) (d : SaveData) : GameState :=
  { coins := d.coins.getD 0
    upgrades := d.upgrades.getD s.upgrades
    power_ups := d.power_ups.getD s.power_ups
    unlocked_zones := d.unlocked_zones.getD ["surface"]
    total_fish_caught := (d.stats.map StatsData.total_fish_caught).getD 0
    total_coins_earned := (d.stats.map StatsData.total_coins_earned).getD 0
    deepest_depth_reached := (d.stats.map StatsData.deepest_depth_reached).getD 0 }

/-- A pygame `Rect`: integer position and (non-negative) size. -/
structure Rect where
  x : Int
  y : Int
  w : Int
  h : Int
deriving DecidableEq, Repr

/-- `rect.center`: pygame computes `(x + w // 2, y + h // 2)` (sizes
are non-negative, so floor and truncating division agree). -/
def Rect.center (r : Rect) : Int × Int := (r.x + r.w / 2, r.y + r.h / 2)

/-- `rect.collidepoint(p)`: inside the box, right and bottom edges
excluded (pygame semantics). -/
def Rect.collidepoint (r : Rect) (p : Int × Int) : Bool :=
  decide (r.x ≤ p.1 ∧ p.1 < r.x + r.w ∧ r.y ≤ p.2 ∧ p.2 < r.y + r.h)

/-- A static catalog entry of `FishManager.initialize_fish_data`. -/
structure FishSpecies where
  name : String
  rarity : String
  value : Int
  depth_range : String
deriving DecidableEq, Repr

/-- `FishManager.initialize_fish_data`. -/
def fish_data : List FishSpecies :=
  [⟨"Clownfish", "Common", 10, "surface"⟩,
   ⟨"Blue Tang", "Common", 15, "surface"⟩,
   ⟨"Yellowtail", "Uncommon", 25, "shallows"⟩,
   ⟨"Grouper", "Uncommon", 35, "shallows"⟩,
   ⟨"Tuna", "Rare", 50, "mid_water"⟩,
   ⟨"Swordfish", "Rare", 75, "mid_water"⟩,
   ⟨"Angler", "Epic", 100, "deep_sea"⟩,
   ⟨"Oarfish", "Epic", 150, "deep_sea"⟩,
   ⟨"Kraken", "Legendary", 300, "abyss"⟩]

/-- A live `Fish` object: the fields the core logic reads and writes.
`id` stands for Python object identity (all fish created by the
manager are distinct objects; `in`-membership on lists of fish is
identity-based, which structural equality mirrors when ids are
distinct). -/
structure Fish where
  id : Nat
  name : String
  value : Int
  rect : Rect
  caught : Bool
deriving DecidableEq, Repr

/-- `Fish.get_value`. -/
def Fish.get_value (f : Fish) : Int := f.value

/-- `FishManager.calculate_round_value`: sum of the values of the
round's caught fish. -/
def calculate_round_value (caught_fish : List Fish) : Int :=
  (caught_fish.map Fish.get_value).sum

/-- The mutable fields of `FishingLine` the core logic uses, plus the
optional back-reference to the game state (capacity and max depth are
read through it). -/
structure FishingLine where
  game_state : Option GameState
  current_depth : Rat
  descending : Bool
  horizontal_offset : Int
  caught_fish : List Fish
deriving DecidableEq, Repr

/-- `FishingLine.get_hook_capacity`: from the game state when present,
else the base constant. -/
def FishingLine.get_hook_capacity (l : FishingLine) : Nat :=
  match l.game_state with
  | some gs => gs.get_hook_capacity
  | none => BASE_HOOK_CAPACITY

/-- `FishingLine.add_caught_fish`: appends the fish when below
capacity and not already present; otherwise no-op returning false. -/
def FishingLine.add_caught_fish (l : FishingLine) (fish : Fish) : FishingLine × Bool :=
  if l.caught_fish.length < l.get_hook_capacity then
    if fish ∈ l.caught_fish then (l, false)
    else ({ l with caught_fish := l.caught_fish ++ [fish] }, true)
  else (l, false)

/-- `FishingLine.is_at_capacity`. -/
def FishingLine.is_at_capacity (l : FishingLine) : Bool :=
  decide (l.get_hook_capacity ≤ l.caught_fish.length)

/-- Squared Euclidean distance between a fish's rect center and the
hook center.  The code computes `((dx**2 + dy**2)**0.5)` on integer
center coordinates and compares it with the integer thresholds 80 and
30; since squaring is monotone on non-negative reals, comparing the
integer square with the squared threshold is exact. -/
def hookDist2 (r : Rect) (hook_center : Int × Int) : Int :=
  let dx := r.center.1 - hook_center.1
  let dy := r.center.2 - hook_center.2
  dx * dx + dy * dy

/-- The catch guard of `FishManager.check_catches`: (pointer inside
the fish's rect and distance at most 80) or distance at most 30. -/
def catchCondition (r : Rect) (hook_center mouse_pos : Int × Int) : Bool :=
  (r.collidepoint mouse_pos && decide (hookDist2 r hook_center ≤ 80 * 80)) ||
    decide (hookDist2 r hook_center ≤ 30 * 30)

/-- `FishManager.check_catches`, folded over the snapshot of the live
sprite list.  Returns the live list after the tick, the fishing line
after the tick, the fish appended to the manager's caught list this
tick (in order), and the `caught_any` flag.  Mirrors the source
exactly: `fish.catch()` (which sets the caught flag) is evaluated
before `add_caught_fish`, so the flag is set even when the hook
rejects the fish, in which case the marked fish stays in the live
list. -/
def check_catches (mouse_pos hook_center : Int × Int) (line : FishingLine) :
    List Fish → List Fish × FishingLine × List Fish × Bool
  | [] => ([], line, [], false)
  | fish :: rest =>
    if fish.caught then
      let (g, l, c, b) := check_catches mouse_pos hook_center line rest
      (fish :: g, l, c, b)
    else if catchCondition fish.rect hook_center mouse_pos then
      let fish' := { fish with caught := true }
      let res := line.add_caught_fish fish'
      if res.2 then
        let (g, l, c, b) := check_catches mouse_pos hook_center res.1 rest
        (g, l, fish' :: c, true || b)
      else
        let (g, l, c, b) := check_catches mouse_pos hook_center res.1 rest
        (fish' :: g, l, c, b)
    else
      let (g, l, c, b) := check_catches mouse_pos hook_center line rest
      (fish :: g, l, c, b)

/-- Step 1 of `FishManager.spawn_fish`: the first zone of
`Config.DEPTH_ZONES` whose inclusive interval contains the current
depth, defaulting to "surface" when none matches (the loop breaks on
the first hit). -/
def findZone : List (String × Int × Int) → Rat → String
  | [], _ => "surface"
  | (zone, min_depth, max_depth) :: rest, current_depth =>
    if (min_depth : Rat) ≤ current_depth ∧ current_depth ≤ (max_depth : Rat) then zone
    else findZone rest current_depth

/-- The current-zone selection of `FishManager.spawn_fish`. -/
def spawnCurrentZone (current_depth : Rat) : String :=
  findZone DEPTH_ZONES current_depth

/-- The species-candidate selection of `FishManager.spawn_fish`: all
species when the current depth exceeds 500, otherwise the species
native to the chosen zone. -/
def spawnValidFish (current_depth : Rat) (zone_name : String) : List FishSpecies :=
  if (500 : Rat) < current_depth then fish_data
  else fish_data.filter (fun fish => fish.depth_range = zone_name)

/-- `Game.end_round`'s settlement: the round's caught-fish value is
added to the economy. -/
def end_round_settle (s : GameState) (caught_fish : List Fish) : GameState :=
  s.add_coins (calculate_round_value caught_fish)

/-! ### Helper lemmas -/

theorem load_save_eq (s t : GameState) : t.load_game s.save_game = s := rfl

theorem Upgrades.length_costs (u : Upgrades) (name : String) (h : (u.get? name).isSome) :
    (UPGRADE_COSTS name).length = 5 := by
  unfold Upgrades.get? at h
  unfold UPGRADE_COSTS
  split_ifs at * <;> simp_all

theorem upgGetSetSelf (u : Upgrades) (name : String) (v : Nat)
    (h : (u.get? name).isSome) : (u.set name v).get? name = some v := by
  unfold Upgrades.get? Upgrades.set at *
  split_ifs at * <;> simp_all

theorem upgGetSetOther (u : Upgrades) (name other : String) (v : Nat)
    (h : other ≠ name) : (u.set name v).get? other = u.get? other := by
  unfold Upgrades.get? Upgrades.set
  split_ifs <;> simp_all

/-! ### Claim theorems -/

/-- Claim C8: for levels 0..4, `get_max_depth` is `300 + 100 × line_length
level`, `get_hook_capacity` is `4 + 1 × hook_capacity level`, and
`get_round_duration` is `10000 + 5000 × round_timer level`; each is a
pure function of its own level only. -/
theorem claim8_derived_limits (s t : GameState)
    (h1 : s.upgrades.line_length ≤ 4) (h2 : s.upgrades.hook_capacity ≤ 4)
    (h3 : s.upgrades.round_timer ≤ 4) :
    s.get_max_depth = 300 + 100 * (s.upgrades.line_length : Int) ∧
    s.get_hook_capacity = 4 + 1 * s.upgrades.hook_capacity ∧
    s.get_round_duration = 10000 + 5000 * (s.upgrades.round_timer : Int) ∧
    (t.upgrades.line_length = s.upgrades.line_length → t.get_max_depth = s.get_max_depth) ∧
    (t.upgrades.hook_capacity = s.upgrades.hook_capacity →
      t.get_hook_capacity = s.get_hook_capacity) ∧
    (t.upgrades.round_timer = s.upgrades.round_timer →
      t.get_round_duration = s.get_round_duration) := by
  unfold GameState.get_max_depth GameState.get_hook_capacity GameState.get_round_duration
  unfold BASE_MAX_DEPTH DEPTH_INCREASE_PER_LEVEL BASE_HOOK_CAPACITY
  unfold CAPACITY_INCREASE_PER_LEVEL BASE_ROUND_DURATION TIMER_INCREASE_PER_LEVEL
  refine ⟨by ring, by ring, by ring, ?_, ?_, ?_⟩ <;> (intro h; rw [h])

theorem claim8_derived_limits_witness :
    GameState.initial.get_max_depth = 300 + 100 * (GameState.initial.upgrades.line_length : Int) :=
  (claim8_derived_limits GameState.initial GameState.initial
    (by decide) (by decide) (by decide)).1

/-- Claim C1: `add_caught_fish` never pushes the caught list past the
hook capacity; when already at or above capacity or when the fish is
already present it returns false and leaves the whole line (caught
list, depth, direction) unchanged; on success it appends the fish at
the tail, returns true, and does not alter depth or direction. -/
theorem claim1_add_caught_fish (l : FishingLine) (fish : Fish) :
    (l.caught_fish.length ≤ l.get_hook_capacity →
      (l.add_caught_fish fish).1.caught_fish.length ≤ l.get_hook_capacity) ∧
    (l.get_hook_capacity ≤ l.caught_fish.length ∨ fish ∈ l.caught_fish →
      (l.add_caught_fish fish).2 = false ∧ (l.add_caught_fish fish).1 = l) ∧
    (l.caught_fish.length < l.get_hook_capacity ∧ fish ∉ l.caught_fish →
      (l.add_caught_fish fish).2 = true ∧
      (l.add_caught_fish fish).1.caught_fish = l.caught_fish ++ [fish] ∧
      (l.add_caught_fish fish).1.current_depth = l.current_depth ∧
      (l.add_caught_fish fish).1.descending = l.descending) := by
  unfold FishingLine.add_caught_fish
  by_cases hlen : l.caught_fish.length < l.get_hook_capacity
  · by_cases hmem : fish ∈ l.caught_fish
    · rw [if_pos hlen, if_pos hmem]
      exact ⟨fun h => h, fun _ => ⟨rfl, rfl⟩, fun hc => absurd hmem hc.2⟩
    · rw [if_pos hlen, if_neg hmem]
      refine ⟨?_, ?_, ?_⟩
      · intro _
        simp only [List.length_append, List.length_cons, List.length_nil]
        omega
      · rintro (hcap | hmem2)
        · omega
        · exact absurd hmem2 hmem
      · exact fun _ => ⟨rfl, rfl, rfl, rfl⟩
  · rw [if_neg hlen]
    exact ⟨fun h => h, fun _ => ⟨rfl, rfl⟩, fun hc => absurd hc.1 hlen⟩

def emptyLine : FishingLine := ⟨some GameState.initial, 0, true, 0, []⟩

def sampleFish : Fish := ⟨0, "Clownfish", 10, ⟨0, 0, 40, 20⟩, false⟩

theorem claim1_add_caught_fish_witness :
    (emptyLine.add_caught_fish sampleFish).2 = true :=
  ((claim1_add_caught_fish emptyLine sampleFish).2.2 ⟨by decide, by decide⟩).1

/-- Claim C3: the round payout is the exact sum of the caught fish's
values (two fish pay the sum of their two values), `add_coins` of a
non-negative amount raises the balance and the lifetime-earned stat by
exactly that amount, and `end_round` settles exactly the round value
into the economy. -/
theorem claim3_round_payout (s : GameState) (amount : Int) (caught : List Fish) (f g : Fish)
    (h : 0 ≤ amount) :
    (s.add_coins amount).coins = s.coins + amount ∧
    (s.add_coins amount).total_coins_earned = s.total_coins_earned + amount ∧
    calculate_round_value [] = 0 ∧
    calculate_round_value (f :: caught) = f.value + calculate_round_value caught ∧
    calculate_round_value [f, g] = f.value + g.value ∧
    (end_round_settle s caught).coins = s.coins + calculate_round_value caught ∧
    (end_round_settle s caught).total_coins_earned =
      s.total_coins_earned + calculate_round_value caught := by
  refine ⟨rfl, rfl, rfl, ?_, ?_, rfl, rfl⟩ <;>
    simp [calculate_round_value, Fish.get_value]

def sampleTuna : Fish := ⟨1, "Tuna", 50, ⟨0, 0, 40, 20⟩, false⟩

theorem claim3_round_payout_witness :
    0 ≤ (60 : Int) ∧ calculate_round_value [sampleFish, sampleTuna] = 60 :=
  ⟨by decide,
    ((claim3_round_payout GameState.initial 60 [] sampleFish sampleTuna (by decide)).2.2.2.2.1).trans
      (by decide)⟩

/-- Claim C7: serialising an economy state and deserialising the
resulting record (into any current state) reproduces the state exactly;
deserialising a record whose stats field is missing yields zeroed
stats. -/
theorem claim7_save_round_trip (s cur cur2 : GameState) (d : SaveData) (h : d.stats = none) :
    cur.load_game s.save_game = s ∧
    (cur2.load_game d).total_fish_caught = 0 ∧
    (cur2.load_game d).total_coins_earned = 0 ∧
    (cur2.load_game d).deepest_depth_reached = 0 := by
  refine ⟨load_save_eq s cur, ?_, ?_, ?_⟩ <;> simp [GameState.load_game, h]

def samplePartialSave : SaveData :=
  { coins := some 7, upgrades := some ⟨1, 0, 0⟩, power_ups := some ⟨0, 0, 0, 0⟩
    unlocked_zones := some ["surface", "shallows"], stats := none }

theorem claim7_save_round_trip_witness :
    GameState.initial.load_game GameState.initial.save_game = GameState.initial ∧
    (GameState.initial.load_game samplePartialSave).total_fish_caught = 0 :=
  ⟨(claim7_save_round_trip GameState.initial GameState.initial GameState.initial
      samplePartialSave (by decide)).1,
   (claim7_save_round_trip GameState.initial GameState.initial GameState.initial
      samplePartialSave (by decide)).2.1⟩

theorem puGetSetSelf (p : PowerUps) (name : String) (v : Int)
    (h : (p.get? name).isSome) : (p.set name v).get? name = some v := by
  unfold PowerUps.get? PowerUps.set at *
  split_ifs at * <;> simp_all

theorem puGetSetOther (p : PowerUps) (name other : String) (v : Int)
    (h : other ≠ name) : (p.set name v).get? other = p.get? other := by
  unfold PowerUps.get? PowerUps.set
  split_ifs <;> simp_all

theorem PowerUps.get_nonneg (p : PowerUps) (name : String) (n : Int)
    (hp : p.nonneg) (h : p.get? name = some n) : 0 ≤ n := by
  unfold PowerUps.get? at h
  unfold PowerUps.nonneg at hp
  split_ifs at h <;> simp_all

theorem PowerUps.set_nonneg (p : PowerUps) (name : String) (v : Int)
    (hp : p.nonneg) (hv : 0 ≤ v) : (p.set name v).nonneg := by
  unfold PowerUps.nonneg PowerUps.set at *
  split_ifs <;> simp_all

/-- Claim C2: for a known upgrade kind at level `L`, a purchase
succeeds exactly when `L` is below the 5-entry cost table's length and
the balance covers `cost_table[L]`; success debits exactly that cost
and raises exactly that level by one; an unknown kind always fails,
and every failure leaves the state untouched. -/
theorem claim2_purchase_upgrade (s : GameState) (name : String) :
    ((s.upgrades.get? name).isSome → (UPGRADE_COSTS name).length = 5) ∧
    (∀ L, s.upgrades.get? name = some L →
      ((s.purchase_upgrade name).2 = true ↔
        L < (UPGRADE_COSTS name).length ∧ (UPGRADE_COSTS name).getD L 0 ≤ s.coins) ∧
      ((s.purchase_upgrade name).2 = true →
        (s.purchase_upgrade name).1.coins = s.coins - (UPGRADE_COSTS name).getD L 0 ∧
        (s.purchase_upgrade name).1.upgrades.get? name = some (L + 1) ∧
        ∀ other, other ≠ name →
          (s.purchase_upgrade name).1.upgrades.get? other = s.upgrades.get? other)) ∧
    (s.upgrades.get? name = none → (s.purchase_upgrade name).2 = false) ∧
    ((s.purchase_upgrade name).2 = false → (s.purchase_upgrade name).1 = s) := by
  refine ⟨fun h => Upgrades.length_costs s.upgrades name h, ?_, ?_, ?_⟩
  · intro L hget
    have hSome : (s.upgrades.get? name).isSome := by rw [hget]; rfl
    simp only [GameState.purchase_upgrade, hget]
    by_cases hmax : (UPGRADE_COSTS name).length ≤ L
    · rw [if_pos hmax]
      constructor
      · constructor
        · intro h; exact absurd h (by simp)
        · intro h; omega
      · intro h; exact absurd h (by simp)
    · rw [if_neg hmax]
      by_cases hcoins : s.coins < (UPGRADE_COSTS name).getD L 0
      · rw [if_pos hcoins]
        constructor
        · constructor
          · intro h; exact absurd h (by simp)
          · intro h; omega
        · intro h; exact absurd h (by simp)
      · rw [if_neg hcoins]
        refine ⟨⟨fun _ => ⟨by omega, by omega⟩, fun _ => rfl⟩, fun _ => ⟨rfl, ?_, ?_⟩⟩
        · exact upgGetSetSelf s.upgrades name (L + 1) hSome
        · exact fun other hother => upgGetSetOther s.upgrades name other (L + 1) hother
  · intro hget
    simp [GameState.purchase_upgrade, hget]
  · intro hfail
    cases hget : s.upgrades.get? name with
    | none => simp only [GameState.purchase_upgrade, hget]
    | some L =>
      simp only [GameState.purchase_upgrade, hget] at hfail ⊢
      by_cases hmax : (UPGRADE_COSTS name).length ≤ L
      · rw [if_pos hmax]
      · rw [if_neg hmax] at hfail ⊢
        by_cases hcoins : s.coins < (UPGRADE_COSTS name).getD L 0
        · rw [if_pos hcoins]
        · rw [if_neg hcoins] at hfail
          exact absurd hfail (by simp)

theorem claim2_purchase_upgrade_witness :
    GameState.initial.upgrades.get? "line_length" = some 0 ∧
    ((GameState.initial.purchase_upgrade "line_length").2 = true ↔
      0 < (UPGRADE_COSTS "line_length").length ∧
        (UPGRADE_COSTS "line_length").getD 0 0 ≤ GameState.initial.coins) :=
  ⟨by decide, ((claim2_purchase_upgrade GameState.initial "line_length").2.1 0 (by decide)).1⟩

/-- Claim C10: power-up counters stay non-negative under both
operations; `purchase_power_up` increments the named counter and
debits exactly the given cost precisely when the name is one of the
four known power-ups and the balance covers the cost, otherwise it
fails changing nothing; `use_power_up` decrements the named counter
precisely when the name is known and the counter is strictly positive,
otherwise it fails changing nothing. -/
theorem ppu_unknown (s : GameState) (name : String) (cost : Int)
    (h : s.power_ups.get? name = none) : s.purchase_power_up name cost = (s, false) := by
  simp [GameState.purchase_power_up, h]

theorem ppu_poor (s : GameState) (name : String) (cost n : Int)
    (h : s.power_ups.get? name = some n) (hc : s.coins < cost) :
    s.purchase_power_up name cost = (s, false) := by
  simp [GameState.purchase_power_up, h, hc]

theorem ppu_ok (s : GameState) (name : String) (cost n : Int)
    (h : s.power_ups.get? name = some n) (hc : ¬ s.coins < cost) :
    s.purchase_power_up name cost =
      ({ s with coins := s.coins - cost, power_ups := s.power_ups.set name (n + 1) }, true) := by
  simp [GameState.purchase_power_up, h, hc]

theorem upu_unknown (s : GameState) (name : String)
    (h : s.power_ups.get? name = none) : s.use_power_up name = (s, false) := by
  simp [GameState.use_power_up, h]

theorem upu_zero (s : GameState) (name : String) (n : Int)
    (h : s.power_ups.get? name = some n) (hz : n ≤ 0) : s.use_power_up name = (s, false) := by
  simp [GameState.use_power_up, h, hz]

theorem upu_ok (s : GameState) (name : String) (n : Int)
    (h : s.power_ups.get? name = some n) (hz : ¬ n ≤ 0) :
    s.use_power_up name = ({ s with power_ups := s.power_ups.set name (n - 1) }, true) := by
  simp [GameState.use_power_up, h, hz]

/-- Claim C10: power-up counters stay non-negative under both
operations; `purchase_power_up` increments the named counter and
debits exactly the given cost precisely when the name is one of the
four known power-ups and the balance covers the cost, otherwise it
fails changing nothing; `use_power_up` decrements the named counter
precisely when the name is known and the counter is strictly positive,
otherwise it fails changing nothing. -/
theorem claim10_power_ups (s : GameState) (name : String) (cost : Int)
    (hpos : s.power_ups.nonneg) :
    (s.purchase_power_up name cost).1.power_ups.nonneg ∧
    (s.use_power_up name).1.power_ups.nonneg ∧
    ((s.purchase_power_up name cost).2 = true ↔
      (s.power_ups.get? name).isSome ∧ cost ≤ s.coins) ∧
    ((s.purchase_power_up name cost).2 = true →
      (s.purchase_power_up name cost).1.coins = s.coins - cost ∧
      (s.purchase_power_up name cost).1.power_ups.get? name =
        (s.power_ups.get? name).map (· + 1) ∧
      ∀ other, other ≠ name →
        (s.purchase_power_up name cost).1.power_ups.get? other = s.power_ups.get? other) ∧
    ((s.purchase_power_up name cost).2 = false → (s.purchase_power_up name cost).1 = s) ∧
    ((s.use_power_up name).2 = true ↔ ∃ n, s.power_ups.get? name = some n ∧ 0 < n) ∧
    ((s.use_power_up name).2 = true →
      (s.use_power_up name).1.coins = s.coins ∧
      (s.use_power_up name).1.power_ups.get? name =
        (s.power_ups.get? name).map (fun n => n - 1) ∧
      ∀ other, other ≠ name →
        (s.use_power_up name).1.power_ups.get? other = s.power_ups.get? other) ∧
    ((s.use_power_up name).2 = false → (s.use_power_up name).1 = s) := by
  cases hget : s.power_ups.get? name with
  | none =>
    rw [ppu_unknown s name cost hget, upu_unknown s name hget]
    refine ⟨hpos, hpos, ?_, ?_, fun _ => rfl, ?_, ?_, fun _ => rfl⟩
    · simp [hget]
    · intro h; exact absurd h (by simp)
    · simp [hget]
    · intro h; exact absurd h (by simp)
  | some n =>
    have hSome : (s.power_ups.get? name).isSome := by rw [hget]; rfl
    have hn : 0 ≤ n := PowerUps.get_nonneg s.power_ups name n hpos hget
    have hbuy : ¬ s.coins < cost →
        (s.purchase_power_up name cost).1.power_ups.nonneg ∧
        (s.purchase_power_up name cost).1.coins = s.coins - cost ∧
        (s.purchase_power_up name cost).1.power_ups.get? name = some (n + 1) ∧
        ∀ other, other ≠ name →
          (s.purchase_power_up name cost).1.power_ups.get? other = s.power_ups.get? other := by
      intro hc
      rw [ppu_ok s name cost n hget hc]
      exact ⟨PowerUps.set_nonneg s.power_ups name (n + 1) hpos (by omega), rfl,
        puGetSetSelf s.power_ups name (n + 1) hSome,
        fun other hother => puGetSetOther s.power_ups name other (n + 1) hother⟩
    have huse : ¬ n ≤ 0 →
        (s.use_power_up name).1.power_ups.nonneg ∧
        (s.use_power_up name).1.coins = s.coins ∧
        (s.use_power_up name).1.power_ups.get? name = some (n - 1) ∧
        ∀ other, other ≠ name →
          (s.use_power_up name).1.power_ups.get? other = s.power_ups.get? other := by
      intro hz
      rw [upu_ok s name n hget hz]
      exact ⟨PowerUps.set_nonneg s.power_ups name (n - 1) hpos (by omega), rfl,
        puGetSetSelf s.power_ups name (n - 1) hSome,
        fun other hother => puGetSetOther s.power_ups name other (n - 1) hother⟩
    refine ⟨?_, ?_, ?_, ?_, ?_, ?_, ?_, ?_⟩
    · by_cases hc : s.coins < cost
      · rw [ppu_poor s name cost n hget hc]; exact hpos
      · exact (hbuy hc).1
    · by_cases hz : n ≤ 0
      · rw [upu_zero s name n hget hz]; exact hpos
      · exact (huse hz).1
    · by_cases hc : s.coins < cost
      · rw [ppu_poor s name cost n hget hc]
        constructor
        · intro h; exact absurd h (by simp)
        · rintro ⟨h1, h2⟩; omega
      · rw [ppu_ok s name cost n hget hc]
        constructor
        · intro _; exact ⟨rfl, by omega⟩
        · intro _; rfl
    · intro htrue
      have hc : ¬ s.coins < cost := by
        by_contra hc
        rw [ppu_poor s name cost n hget hc] at htrue
        exact absurd htrue (by simp)
      obtain ⟨h1, h2, h3, h4⟩ := hbuy hc
      exact ⟨h2, by simp [h3, hget], h4⟩
    · intro hfalse
      by_cases hc : s.coins < cost
      · rw [ppu_poor s name cost n hget hc]
      · rw [ppu_ok s name cost n hget hc] at hfalse
        exact absurd hfalse (by simp)
    · by_cases hz : n ≤ 0
      · rw [upu_zero s name n hget hz]
        constructor
        · intro h; exact absurd h (by simp)
        · rintro ⟨m, hm, hmpos⟩
          injection hm with h
          exact absurd hmpos (by omega)
      · rw [upu_ok s name n hget hz]
        exact ⟨fun _ => ⟨n, rfl, by omega⟩, fun _ => rfl⟩
    · intro htrue
      have hz : ¬ n ≤ 0 := by
        by_contra hz
        rw [upu_zero s name n hget hz] at htrue
        exact absurd htrue (by simp)
      obtain ⟨h1, h2, h3, h4⟩ := huse hz
      exact ⟨h2, by simp [h3, hget], h4⟩
    · intro hfalse
      by_cases hz : n ≤ 0
      · rw [upu_zero s name n hget hz]
      · rw [upu_ok s name n hget hz] at hfalse
        exact absurd hfalse (by simp)

theorem claim10_power_ups_witness :
    GameState.initial.power_ups.nonneg ∧
    (GameState.initial.purchase_power_up "magnet_hook" 0).1.power_ups.nonneg :=
  ⟨by decide, (claim10_power_ups GameState.initial "magnet_hook" 0 (by decide)).1⟩

/-- The C6 invariant: the unlocked list is the length-`min 5 (level+1)`
prefix of the fixed zone order. -/
def zoneInvariant (s : GameState) : Prop :=
  s.unlocked_zones = ZONE_NAMES.take (min 5 (s.upgrades.line_length + 1))

theorem zoneInvariant_update (s : GameState) : zoneInvariant s.update_unlocked_zones := rfl

theorem zoneInvariant_purchase (s : GameState) (name : String) (h : zoneInvariant s) :
    zoneInvariant (s.purchase_upgrade name).1 := by
  cases hget : s.upgrades.get? name with
  | none => simp only [GameState.purchase_upgrade, hget]; exact h
  | some L =>
    simp only [GameState.purchase_upgrade, hget]
    by_cases hmax : (UPGRADE_COSTS name).length ≤ L
    · rw [if_pos hmax]; exact h
    · rw [if_neg hmax]
      by_cases hcoins : s.coins < (UPGRADE_COSTS name).getD L 0
      · rw [if_pos hcoins]; exact h
      · rw [if_neg hcoins]
        exact zoneInvariant_update _

theorem zoneInvariant_power_buy (s : GameState) (name : String) (cost : Int)
    (h : zoneInvariant s) : zoneInvariant (s.purchase_power_up name cost).1 := by
  cases hget : s.power_ups.get? name with
  | none => rw [ppu_unknown s name cost hget]; exact h
  | some n =>
    by_cases hc : s.coins < cost
    · rw [ppu_poor s name cost n hget hc]; exact h
    · rw [ppu_ok s name cost n hget hc]; exact h

theorem zoneInvariant_power_use (s : GameState) (name : String)
    (h : zoneInvariant s) : zoneInvariant (s.use_power_up name).1 := by
  cases hget : s.power_ups.get? name with
  | none => rw [upu_unknown s name hget]; exact h
  | some n =>
    by_cases hz : n ≤ 0
    · rw [upu_zero s name n hget hz]; exact h
    · rw [upu_ok s name n hget hz]; exact h

/-- Economy states reachable from the initial state through the
state-mutating operations of `game_state.py`; a load step loads a
record that was saved from a reachable state (the save file is only
ever written by `save_game`). -/
inductive Reachable : GameState → Prop where
  | init : Reachable GameState.initial
  | upgrade (s : GameState) (name : String) :
      Reachable s → Reachable (s.purchase_upgrade name).1
  | power_buy (s : GameState) (name : String) (cost : Int) :
      Reachable s → Reachable (s.purchase_power_up name cost).1
  | power_use (s : GameState) (name : String) :
      Reachable s → Reachable (s.use_power_up name).1
  | earn (s : GameState) (amount : Int) : Reachable s → Reachable (s.add_coins amount)
  | stats (s : GameState) (depth : Rat) (n : Int) :
      Reachable s → Reachable (s.update_stats depth n)
  | reset (s : GameState) : Reachable s → Reachable s.reset_progress
  | load (s t : GameState) : Reachable s → Reachable t → Reachable (t.load_game s.save_game)

/-- Claim C6: in every reachable economy state the unlocked-zone list
has length exactly `min 5 (line_length level + 1)` and is exactly that
prefix of the fixed zone order. -/
theorem claim6_zone_invariant (s : GameState) (h : Reachable s) :
    s.unlocked_zones.length = min 5 (s.upgrades.line_length + 1) ∧
    s.unlocked_zones = ZONE_NAMES.take (min 5 (s.upgrades.line_length + 1)) := by
  have main : zoneInvariant s := by
    induction h with
    | init => rfl
    | upgrade s name hs ih => exact zoneInvariant_purchase s name ih
    | power_buy s name cost hs ih => exact zoneInvariant_power_buy s name cost ih
    | power_use s name hs ih => exact zoneInvariant_power_use s name ih
    | earn s amount hs ih => exact ih
    | stats s depth n hs ih =>
      unfold GameState.update_stats
      split_ifs <;> exact ih
    | reset s hs ih => rfl
    | load s t hs ht ihs iht => rw [load_save_eq]; exact ihs
  refine ⟨?_, main⟩
  rw [main, List.length_take]
  simp [ZONE_NAMES]

theorem claim6_zone_invariant_witness :
    GameState.initial.unlocked_zones.length =
      min 5 (GameState.initial.upgrades.line_length + 1) :=
  (claim6_zone_invariant GameState.initial Reachable.init).1

/-- Claim C4: a fish passes the catch guard exactly when the pointer
is inside its bounding box and the Euclidean center distance to the
hook is at most 80, or that distance is at most 30 unconditionally; a
fish at distance 25 (squared distance 625) is always caught, a fish at
distance 100 (squared distance 10000) never is. -/
theorem claim4_catch_rule (r : Rect) (hook mouse : Int × Int) :
    (catchCondition r hook mouse = true ↔
      ((r.collidepoint mouse = true ∧ Real.sqrt ((hookDist2 r hook : Int) : ℝ) ≤ 80) ∨
        Real.sqrt ((hookDist2 r hook : Int) : ℝ) ≤ 30)) ∧
    (hookDist2 r hook = 625 → catchCondition r hook mouse = true) ∧
    (hookDist2 r hook = 10000 → catchCondition r hook mouse = false) := by
  have key : ∀ b : Int, 0 ≤ b →
      (Real.sqrt ((hookDist2 r hook : Int) : ℝ) ≤ (b : ℝ) ↔ hookDist2 r hook ≤ b * b) := by
    intro b hb
    have hb' : (0 : ℝ) ≤ (b : ℝ) := by exact_mod_cast hb
    have hsq : ((b : ℝ) ^ 2) = ((b * b : Int) : ℝ) := by push_cast; ring
    rw [Real.sqrt_le_left hb', hsq]
    exact Int.cast_le
  have h80 := key 80 (by norm_num)
  have h30 := key 30 (by norm_num)
  have c80 : ((80 : Int) : ℝ) = (80 : ℝ) := by norm_num
  have c30 : ((30 : Int) : ℝ) = (30 : ℝ) := by norm_num
  rw [c80] at h80
  rw [c30] at h30
  refine ⟨?_, ?_, ?_⟩
  · rw [h80, h30]
    simp [catchCondition]
  · intro hd
    simp [catchCondition, hd]
  · intro hd
    simp [catchCondition, hd]

def sampleRect : Rect := ⟨0, 0, 0, 0⟩

theorem claim4_catch_rule_witness :
    hookDist2 sampleRect (25, 0) = 625 ∧
    catchCondition sampleRect (25, 0) (999, 999) = true :=
  ⟨by decide, (claim4_catch_rule sampleRect (25, 0) (999, 999)).2.1 (by decide)⟩

/-- Claim C9 counterexample: at depth 650 (greater than 500) no zone
interval matches, so the spawn algorithm's current zone is the default
"surface" — it is not forced to "abyss" (that forcing exists only in
`draw_background`). -/
theorem claim9_counterexample :
    spawnCurrentZone 650 = "surface" ∧ spawnCurrentZone 650 ≠ "abyss" := by
  have h : spawnCurrentZone 650 = "surface" := by
    simp only [spawnCurrentZone, DEPTH_ZONES, findZone]
    norm_num
  exact ⟨h, by rw [h]; decide⟩

/-- Claim C9 (amended): the spawn algorithm's current zone is the zone
whose inclusive interval contains the depth, defaulting to "surface"
when no interval matches — including for every depth above 500, where
the algorithm instead widens the candidate species to all fish. -/
theorem claim9_spawn_zone (d : Rat) :
    ((500 : Rat) < d →
      spawnCurrentZone d = "surface" ∧ spawnValidFish d (spawnCurrentZone d) = fish_data) ∧
    (0 ≤ d ∧ d ≤ 100 → spawnCurrentZone d = "surface") ∧
    (101 ≤ d ∧ d ≤ 200 → spawnCurrentZone d = "shallows") ∧
    (201 ≤ d ∧ d ≤ 300 → spawnCurrentZone d = "mid_water") ∧
    (301 ≤ d ∧ d ≤ 400 → spawnCurrentZone d = "deep_sea") ∧
    (401 ≤ d ∧ d ≤ 500 → spawnCurrentZone d = "abyss") := by
  refine ⟨?_, ?_, ?_, ?_, ?_, ?_⟩
  · intro hd
    have hz : spawnCurrentZone d = "surface" := by
      simp only [spawnCurrentZone, DEPTH_ZONES, findZone]
      push_cast
      split_ifs with h1 h2 h3 h4 h5
      · exact absurd h1.2 (by linarith)
      · exact absurd h2.2 (by linarith)
      · exact absurd h3.2 (by linarith)
      · exact absurd h4.2 (by linarith)
      · exact absurd h5.2 (by linarith)
      · rfl
    refine ⟨hz, ?_⟩
    simp only [spawnValidFish, if_pos hd]
  · rintro ⟨hlo, hhi⟩
    simp only [spawnCurrentZone, DEPTH_ZONES, findZone]
    push_cast
    rw [if_pos ⟨hlo, hhi⟩]
  · rintro ⟨hlo, hhi⟩
    simp only [spawnCurrentZone, DEPTH_ZONES, findZone]
    push_cast
    rw [if_neg (by rintro ⟨h1, h2⟩; linarith), if_pos ⟨hlo, hhi⟩]
  · rintro ⟨hlo, hhi⟩
    simp only [spawnCurrentZone, DEPTH_ZONES, findZone]
    push_cast
    rw [if_neg (by rintro ⟨h1, h2⟩; linarith), if_neg (by rintro ⟨h1, h2⟩; linarith),
      if_pos ⟨hlo, hhi⟩]
  · rintro ⟨hlo, hhi⟩
    simp only [spawnCurrentZone, DEPTH_ZONES, findZone]
    push_cast
    rw [if_neg (by rintro ⟨h1, h2⟩; linarith), if_neg (by rintro ⟨h1, h2⟩; linarith),
      if_neg (by rintro ⟨h1, h2⟩; linarith), if_pos ⟨hlo, hhi⟩]
  · rintro ⟨hlo, hhi⟩
    simp only [spawnCurrentZone, DEPTH_ZONES, findZone]
    push_cast
    rw [if_neg (by rintro ⟨h1, h2⟩; linarith), if_neg (by rintro ⟨h1, h2⟩; linarith),
      if_neg (by rintro ⟨h1, h2⟩; linarith), if_neg (by rintro ⟨h1, h2⟩; linarith),
      if_pos ⟨hlo, hhi⟩]

theorem claim9_spawn_zone_witness :
    spawnCurrentZone 150 = "shallows" ∧ spawnCurrentZone 650 = "surface" :=
  ⟨(claim9_spawn_zone 150).2.2.1 (by norm_num),
   ((claim9_spawn_zone 650).1 (by norm_num)).1⟩

/-- Per-fish effect of one `check_catches` pass in which the hook
accepts nothing: an uncaught fish matching the catch guard still gets
its caught flag set (by `fish.catch()`, which runs before
`add_caught_fish`); every other fish is untouched. -/
def markCatchable (hook_center mouse_pos : Int × Int) (f : Fish) : Fish :=
  if f.caught = false ∧ catchCondition f.rect hook_center mouse_pos = true then
    { f with caught := true }
  else f

def fullLine : FishingLine :=
  ⟨some GameState.initial, 0, true, 0,
   [⟨1, "Clownfish", 10, ⟨0, 0, 10, 10⟩, true⟩, ⟨2, "Clownfish", 10, ⟨0, 0, 10, 10⟩, true⟩,
    ⟨3, "Clownfish", 10, ⟨0, 0, 10, 10⟩, true⟩, ⟨4, "Clownfish", 10, ⟨0, 0, 10, 10⟩, true⟩]⟩

def freshFish : Fish := ⟨5, "Tuna", 50, ⟨0, 0, 10, 10⟩, false⟩

/-- Claim C5 counterexample: with the hook at capacity and an uncaught
fish right at the hook, `check_catches` counts no catch and leaves the
line and the live-set membership unchanged, but the attempted catch
still mutates the fish: its caught flag is set, so the live set is not
left unchanged as the claim states. -/
theorem claim5_counterexample :
    catchCondition freshFish.rect (5, 5) (0, 0) = true ∧
    fullLine.get_hook_capacity ≤ fullLine.caught_fish.length ∧
    (check_catches (0, 0) (5, 5) fullLine [freshFish]).2.2.2 = false ∧
    (check_catches (0, 0) (5, 5) fullLine [freshFish]).2.1 = fullLine ∧
    (check_catches (0, 0) (5, 5) fullLine [freshFish]).2.2.1 = [] ∧
    (check_catches (0, 0) (5, 5) fullLine [freshFish]).1 ≠ [freshFish] ∧
    (check_catches (0, 0) (5, 5) fullLine [freshFish]).1 =
      [{ freshFish with caught := true }] := by
  refine ⟨by decide, by decide, ?_, ?_, ?_, by decide, ?_⟩ <;> rfl

/-- Claim C5 (amended): a condition-satisfying fish is removed from
the live set, appended to the round's caught list, and counted toward
"a catch occurred this tick" only if `add_caught_fish` succeeds; when
the hook is already full, the pass leaves the line, the round's caught
list and the catch flag unchanged and keeps every fish in the live
set, but it does set the caught flag of each uncaught fish satisfying
the catch condition (rather than leaving the fish's state unchanged). -/
theorem claim5_full_hook (mouse_pos hook_center : Int × Int) (line : FishingLine)
    (fishes : List Fish)
    (hfull : line.get_hook_capacity ≤ line.caught_fish.length) :
    check_catches mouse_pos hook_center line fishes =
      (fishes.map (markCatchable hook_center mouse_pos), line, [], false) ∧
    (∀ (l₂ : FishingLine) (f : Fish), f.caught = false →
      catchCondition f.rect hook_center mouse_pos = true →
      (l₂.add_caught_fish { f with caught := true }).2 = true →
      check_catches mouse_pos hook_center l₂ [f] =
        ([], (l₂.add_caught_fish { f with caught := true }).1,
          [{ f with caught := true }], true)) := by
  constructor
  · induction fishes with
    | nil => simp [check_catches]
    | cons f rest ih =>
      by_cases hc : f.caught
      · simp [check_catches, hc, ih, markCatchable]
      · by_cases hcond : catchCondition f.rect hook_center mouse_pos
        · have hadd : line.add_caught_fish { f with caught := true } = (line, false) := by
            unfold FishingLine.add_caught_fish
            rw [if_neg (by omega)]
          simp [check_catches, hc, hcond, hadd, ih, markCatchable]
        · simp [check_catches, hc, hcond, ih, markCatchable]
  · intro l₂ f hcaught hcond hadd
    simp [check_catches, hcaught, hcond, hadd]

theorem claim5_full_hook_witness :
    check_catches (0, 0) (5, 5) fullLine [freshFish] =
      ([freshFish].map (markCatchable (5, 5) (0, 0)), fullLine, [], false) :=
  (claim5_full_hook (0, 0) (5, 5) fullLine [freshFish] (by decide)).1

end VibeCatch
